import Mathlib

/-!
Shallow embedding of the one-time-share message store (src/database.rs) and
the creation-request validation logic (src/main.rs, create_new_message),
together with theorems settling the specification claims about them.

Modelling conventions:
* SQLite INTEGER columns holding i64 values (timestamps) are `Int`;
  u32-valued limit columns are `Nat` (the i32-insert / u32-read round trip
  used by the source is the identity on the values the program stores).
* Each table is a list of rows in insertion order; the UNIQUE index on the
  token columns is reflected by insert operations failing on a duplicate
  token, and lookups taking the first matching row (as SQLite does).
* The `global_vars` table only ever holds the single `version` record, so it
  is modelled as that record: `Option String`.
* Fallible operations return `Except DbError`; operations whose SQL cannot
  violate a constraint are total.
-/

namespace OneTimeShare

/-- `const MINIMAL_VERSION: &str = "0.1"` in src/database.rs. -/
def MINIMAL_VERSION : String := "0.1"

/-- `const LATEST_VERSION: &str = "0.1"` in src/database.rs. -/
def LATEST_VERSION : String := "0.1"

/-- A row of the `users` table: token (UNIQUE), the three limit columns, and
the nullable `last_message_creation_timestamp` column. -/
structure UserRow where
  token : String
  retention_limit_minutes : Nat
  max_size_bytes : Nat
  message_creation_limit_minutes : Nat
  last_message_creation_timestamp : Option Int
  deriving DecidableEq

/-- A row of the `messages` table: message_token (UNIQUE), expire_timestamp,
payload text. -/
structure MsgRow where
  message_token : String
  expire_timestamp : Int
  data : String
  deriving DecidableEq

/-- The persistent store: the `version` record of `global_vars`, the `users`
table and the `messages` table. -/
structure Db where
  version : Option String
  users : List UserRow
  messages : List MsgRow
  deriving DecidableEq

/-- Abstract storage-layer error (rusqlite's error type); the only
constraint the model can violate is a UNIQUE index. -/
inductive DbError where
  | constraintViolation
  deriving DecidableEq

/-- `get_database_version`: the stored string, or LATEST_VERSION when the
`version` record is absent (`unwrap_or_else`). -/
def get_database_version (db : Db) : String :=
  db.version.getD LATEST_VERSION

/-- `set_database_version`: DELETE the `version` record then INSERT the new
one; net effect is replacing the record. -/
def set_database_version (db : Db) (version : String) : Db :=
  { db with version := some version }

/-- `set_user_limits`: INSERT .. ON CONFLICT(token) DO UPDATE of the three
limit columns. A fresh row leaves `last_message_creation_timestamp` NULL; a
conflicting row keeps it. -/
def set_user_limits (db : Db) (token : String)
    (retention_limit_minutes max_size_bytes message_creation_limit_minutes : Nat) : Db :=
  if db.users.any (fun u => u.token == token) then
    { db with users := db.users.map fun u =>
        if u.token == token then
          { u with retention_limit_minutes := retention_limit_minutes,
                   max_size_bytes := max_size_bytes,
                   message_creation_limit_minutes := message_creation_limit_minutes }
        else u }
  else
    { db with users := db.users ++
        [⟨token, retention_limit_minutes, max_size_bytes, message_creation_limit_minutes, none⟩] }

/-- `get_user_limits`: SELECT the three limit columns WHERE token matches.
The source returns `(found, r, m, c)` with `(false, 0, 0, 0)` on a miss;
`Option` models the `found` flag. -/
def get_user_limits (db : Db) (token : String) : Option (Nat × Nat × Nat) :=
  (db.users.find? (fun u => u.token == token)).map fun u =>
    (u.retention_limit_minutes, u.max_size_bytes, u.message_creation_limit_minutes)

/-- `set_user_last_message_creation_time`: UPDATE .. WHERE token matches;
matching zero rows is still a success. -/
def set_user_last_message_creation_time (db : Db) (token : String) (timestamp : Int) : Db :=
  { db with users := db.users.map fun u =>
      if u.token == token then { u with last_message_creation_timestamp := some timestamp }
      else u }

/-- `get_user_last_message_creation_time`: the stored timestamp, with
`unwrap_or(0)` collapsing both "no row" and "NULL column" to 0. -/
def get_user_last_message_creation_time (db : Db) (token : String) : Int :=
  match db.users.find? (fun u => u.token == token) with
  | some u => u.last_message_creation_timestamp.getD 0
  | none => 0

/-- `save_message`: plain INSERT; the UNIQUE index on message_token turns a
duplicate into a constraint error. -/
def save_message (db : Db) (message_token : String) (expire_timestamp : Int)
    (data : String) : Except DbError Db :=
  if db.messages.any (fun m => m.message_token == message_token) then
    .error .constraintViolation
  else
    .ok { db with messages := db.messages ++ [⟨message_token, expire_timestamp, data⟩] }

/-- `try_consume_message`: SELECT the (first, and by uniqueness only) row
with the token, DELETE it by its id, and return its data and
expire_timestamp; `(none, 0)` when no row matches. Deleting by the found
row's id is deleting the first matching row, i.e. `eraseP`. -/
def try_consume_message (db : Db) (message_token : String) :
    (Option String × Int) × Db :=
  match db.messages.find? (fun m => m.message_token == message_token) with
  | some row =>
      ((some row.data, row.expire_timestamp),
       { db with messages := db.messages.eraseP (fun m => m.message_token == message_token) })
  | none => ((none, 0), db)

/-!
Quota-checking portion of `create_new_message` in src/main.rs (lines 74-122):
look up the user's limits, then run the rate-limit, size and retention
checks in that order, returning at the first one that fires.
-/

/-- Outcome of the validation phase of `create_new_message`: one constructor
per early-return response, plus `allowed` for falling through all checks. -/
inductive CreateDecision where
  | userNotFound
  | rateLimited (minutes_left : Nat)
  | tooLarge
  | retentionTooLong
  | allowed
  deriving DecidableEq

/-- The `minutes_left` computation of src/main.rs line 96:
`message_creation_limit_minutes - (time_passed / 60) as u32`, with i64
truncating division, the wrapping `as u32` cast, and (release-mode)
wrapping u32 subtraction. -/
def minutes_left_calc (message_creation_limit_minutes : Nat) (time_passed : Int) : Nat :=
  (message_creation_limit_minutes + 4294967296 -
    (time_passed.tdiv 60 % 4294967296).toNat) % 4294967296

/-- The decision logic of `create_new_message` (src/main.rs lines 74-122)
over the store, with the base64-decoded payload length and the clock reading
passed as parameters. The source nests the rate-limit test as three ifs
(`limit > 0`, `last > 0`, `time_passed < limit*60`); flattened here into one
conjunction, with `get_user_last_message_creation_time` read exactly as the
source reads it. -/
def create_new_message_decision (db : Db) (user_token : String)
    (requested_retention_minutes : Nat) (decoded_payload_size : Nat) (now : Int) :
    CreateDecision :=
  match get_user_limits db user_token with
  | none => .userNotFound
  | some (user_retention_limit_minutes, max_size_bytes, message_creation_limit_minutes) =>
    let last_creation_time := get_user_last_message_creation_time db user_token
    let time_passed : Int := now - last_creation_time
    if 0 < message_creation_limit_minutes ∧ 0 < last_creation_time ∧
        time_passed < (message_creation_limit_minutes : Int) * 60 then
      .rateLimited (minutes_left_calc message_creation_limit_minutes time_passed)
    else if 0 < max_size_bytes ∧ max_size_bytes < decoded_payload_size then
      .tooLarge
    else if 0 < requested_retention_minutes ∧ 0 < user_retention_limit_minutes ∧
        user_retention_limit_minutes < requested_retention_minutes then
      .retentionTooLong
    else
      .allowed

/-- `remove_user_by_token`: DELETE FROM users WHERE token matches. -/
def remove_user_by_token (db : Db) (token : String) : Db :=
  { db with users := db.users.filter (fun u => !(u.token == token)) }

/-- `clear_expired_messages`: DELETE FROM messages WHERE
expire_timestamp < limit_timestamp (note: the SQL has no carve-out for
expire_timestamp = 0). -/
def clear_expired_messages (db : Db) (limit_timestamp : Int) : Db :=
  { db with messages := db.messages.filter (fun m => !(decide (m.expire_timestamp < limit_timestamp))) }

/-!
Schema migrator (src/database.rs lines 176-229). `make_updaters` panics when
the collected updater chain is non-empty but does not end at the target
version; the panic is modelled as `Except.error (.chainBroken ..)`, and a
failing updater (`update_db(db)?`) as `.error (.storage ..)`. The statically
registered chain `make_all_updaters` is currently empty, so the chain walk
and its validation are stated over an arbitrary registered list and
instantiated with the empty one.
-/

/-- A registered migration step: the version it produces and the transform
it applies to the store (`fn(&OneTimeShareDb) -> Result<()>`). -/
structure DbUpdater where
  version : String
  update_db : Db → Except DbError Db

/-- How `update_version` can fail: the `make_updaters` panic (broken chain),
or a storage error from a migration step. -/
inductive UpdateError where
  | chainBroken (expected found : String)
  | storage (e : DbError)

/-- The collection loop of `make_updaters`: walk the registered updaters;
before the `version_from` marker is found nothing is collected; once found
(`is_first_found`), every updater is collected and the walk breaks right
after collecting one whose version equals `version_to`. -/
def collect_updaters (version_from version_to : String) :
    List DbUpdater → Bool → List DbUpdater
  | [], _ => []
  | u :: rest, is_first_found =>
    if is_first_found then
      u :: (if u.version = version_to then [] else collect_updaters version_from version_to rest true)
    else if u.version = version_from then
      collect_updaters version_from version_to rest true
    else
      collect_updaters version_from version_to rest false

/-- `make_updaters` over an explicit registered list: collect the chain,
then panic (`chainBroken`) when it is non-empty and its last step's version
is not `version_to`. -/
def make_updaters_from (all_updaters : List DbUpdater) (version_from version_to : String) :
    Except UpdateError (List DbUpdater) :=
  let updaters := collect_updaters version_from version_to all_updaters
    (version_from == MINIMAL_VERSION)
  match updaters.getLast? with
  | none => .ok updaters
  | some lastU =>
      if lastU.version = version_to then .ok updaters
      else .error (.chainBroken version_to lastU.version)

/-- `make_all_updaters`: the statically registered chain, currently empty. -/
def make_all_updaters : List DbUpdater := []

/-- The `for updater in updaters { updater.update_db(db)?; }` loop of
`update_version`. -/
def apply_updaters : List DbUpdater → Db → Except UpdateError Db
  | [], db => .ok db
  | u :: rest, db =>
    match u.update_db db with
    | .ok db2 => apply_updaters rest db2
    | .error e => .error (.storage e)

/-- `update_version` over an explicit registered list: read the current
version; when it differs from LATEST_VERSION build and apply the updater
chain; in every successful path finally write LATEST_VERSION back. (The
source guards the migration block with `current != LATEST`; stated here with
the branches swapped.) -/
def update_version_from (all_updaters : List DbUpdater) (db : Db) : Except UpdateError Db :=
  let current_version := get_database_version db
  if current_version = LATEST_VERSION then
    .ok (set_database_version db LATEST_VERSION)
  else
    match make_updaters_from all_updaters current_version LATEST_VERSION with
    | .error e => .error e
    | .ok updaters =>
      match apply_updaters updaters db with
      | .error e => .error e
      | .ok db2 => .ok (set_database_version db2 LATEST_VERSION)

/-- `update_version` as shipped: the registered chain is `make_all_updaters`. -/
def update_version (db : Db) : Except UpdateError Db :=
  update_version_from make_all_updaters db

/-! ## Helper lemmas -/

/-- Appending a fresh matching row to a list with no matching row makes it
the row `find?` returns. -/
theorem find?_append_fresh {α : Type} {p : α → Bool} {l : List α} {a : α}
    (h : ∀ x ∈ l, ¬p x) (ha : p a) : (l ++ [a]).find? p = some a := by
  rw [List.find?_append, List.find?_eq_none.mpr h, List.find?_cons_of_pos _ ha]
  rfl

/-- Erasing the first match from a list whose only match is a freshly
appended row removes exactly that row. -/
theorem eraseP_append_fresh {α : Type} {p : α → Bool} {l : List α} {a : α}
    (h : ∀ x ∈ l, ¬p x) (ha : p a) : (l ++ [a]).eraseP p = l := by
  rw [List.eraseP_append_right _ h, List.eraseP_cons_of_pos ha, List.append_nil]

/-! ## Claims -/

/-- Claim C1: for any message saved under a token, the very first consume of
that token returns exactly the stored payload and stored expire_timestamp
(the consume path never inspects the clock, so this holds in particular when
the expire_timestamp has already passed and the row has not been swept), and
a consume after the first returns NotFound and leaves the store unchanged,
so every subsequent consume of that token returns NotFound. -/
theorem claim_C1_consume_exactly_once (db db2 : Db) (tok : String)
    (expire : Int) (data : String)
    (hsave : save_message db tok expire data = .ok db2) :
    (try_consume_message db2 tok).1 = (some data, expire) ∧
    try_consume_message (try_consume_message db2 tok).2 tok =
      ((none, 0), (try_consume_message db2 tok).2) := by
  unfold save_message at hsave
  split at hsave
  · exact absurd hsave (by simp)
  · next hany =>
    have hfalse : db.messages.any (fun m => m.message_token == tok) = false := by
      simpa using hany
    have hforall : ∀ x ∈ db.messages, ¬((fun m => m.message_token == tok) x) :=
      List.any_eq_false.mp hfalse
    have hp : (fun (m : MsgRow) => m.message_token == tok) ⟨tok, expire, data⟩ := by simp
    injection hsave with hdb
    subst hdb
    have hfind := find?_append_fresh hforall hp
    have herase := eraseP_append_fresh hforall hp
    have hnone : db.messages.find? (fun m => m.message_token == tok) = none :=
      List.find?_eq_none.mpr hforall
    constructor
    · simp [try_consume_message, hfind]
    · simp [try_consume_message, hfind, herase, hnone]

/-- Witness for C1 at a concrete store: save "hi" with expire 1000 under
"tokA" into an empty store, then consume twice. -/
theorem claim_C1_consume_exactly_once_witness :
    (try_consume_message ⟨none, [], [⟨"tokA", 1000, "hi"⟩]⟩ "tokA").1 = (some "hi", 1000) ∧
    try_consume_message
        (try_consume_message ⟨none, [], [⟨"tokA", 1000, "hi"⟩]⟩ "tokA").2 "tokA" =
      ((none, 0), (try_consume_message ⟨none, [], [⟨"tokA", 1000, "hi"⟩]⟩ "tokA").2) :=
  claim_C1_consume_exactly_once ⟨none, [], []⟩ ⟨none, [], [⟨"tokA", 1000, "hi"⟩]⟩
    "tokA" 1000 "hi" rfl

/-- Claim C9: consuming a token with no matching message row (never saved,
already consumed, or swept) returns NotFound and leaves the entire store
unchanged. -/
theorem claim_C9_consume_absent_token (db : Db) (tok : String)
    (hnone : db.messages.find? (fun m => m.message_token == tok) = none) :
    try_consume_message db tok = ((none, 0), db) := by
  simp [try_consume_message, hnone]

/-- Witness for C9: a store holding only "tokB" declines a consume of
"tokA" and is unchanged. -/
theorem claim_C9_consume_absent_token_witness :
    try_consume_message ⟨none, [], [⟨"tokB", 7, "yo"⟩]⟩ "tokA" =
      ((none, 0), ⟨none, [], [⟨"tokB", 7, "yo"⟩]⟩) :=
  claim_C9_consume_absent_token ⟨none, [], [⟨"tokB", 7, "yo"⟩]⟩ "tokA" (by decide)

/-- Claim C10: writing the last-creation timestamp for a token that has no
quota row is a success that matches zero rows: the whole store (not just the
users table) is returned unchanged and no quota record is created. (The
model operation is total, mirroring the source's unconditional `Ok(())`.) -/
theorem claim_C10_update_absent_user (db : Db) (tok : String) (ts : Int)
    (hnone : db.users.find? (fun u => u.token == tok) = none) :
    set_user_last_message_creation_time db tok ts = db := by
  have hforall := List.find?_eq_none.mp hnone
  unfold set_user_last_message_creation_time
  have hmap : (db.users.map fun u =>
      if u.token == tok then { u with last_message_creation_timestamp := some ts } else u)
      = db.users := by
    have h1 : (db.users.map fun u =>
        if u.token == tok then { u with last_message_creation_timestamp := some ts } else u)
        = db.users.map id :=
      List.map_congr_left fun u hu => by
        simp [show ¬(u.token == tok) from hforall u hu]
    rw [h1, List.map_id]
  rw [hmap]

/-- Witness for C10: a store whose only quota row is "userB" is untouched by
a timestamp write for "userA". -/
theorem claim_C10_update_absent_user_witness :
    set_user_last_message_creation_time ⟨none, [⟨"userB", 1, 2, 3, none⟩], []⟩ "userA" 99 =
      ⟨none, [⟨"userB", 1, 2, 3, none⟩], []⟩ :=
  claim_C10_update_absent_user ⟨none, [⟨"userB", 1, 2, 3, none⟩], []⟩ "userA" 99 (by decide)

/-- Claim C2 fails on the code: `clear_expired_messages` deletes every row
with expire_timestamp < now, with no carve-out for the never-expires
sentinel 0, so at the failing input below sweep(160) deletes the
expire_timestamp = 0 message the claim says is never touched (the
expire_timestamp = 200 row is correctly kept). -/
theorem claim_C2_sweep_deletes_never_expiring :
    clear_expired_messages ⟨none, [], [⟨"tokA", 0, "hi"⟩, ⟨"tokB", 200, "yo"⟩]⟩ 160 =
      ⟨none, [], [⟨"tokB", 200, "yo"⟩]⟩ := by
  decide

/-- `find?` by token commutes with mapping a token-preserving function over
the users table. -/
theorem find?_token_map {g : UserRow → UserRow} (hg : ∀ u, (g u).token = u.token)
    (tok : String) (l : List UserRow) :
    (l.map g).find? (fun u => u.token == tok) =
      (l.find? (fun u => u.token == tok)).map g := by
  induction l with
  | nil => rfl
  | cons b bs ih =>
    rw [List.map_cons, List.find?_cons, List.find?_cons,
      show ((g b).token == tok) = (b.token == tok) by rw [hg]]
    cases hb : b.token == tok with
    | true => rfl
    | false => exact ih

/-- Claim C4: for a token that already has a quota row carrying a stored
last_message_creation_timestamp, `set_user_limits` takes the ON CONFLICT
UPDATE path: afterwards the three limit columns hold the new values while
the stored timestamp still reads back unchanged. -/
theorem claim_C4_upsert_preserves_timestamp (db : Db) (tok : String)
    (r m c : Nat) (row : UserRow) (ts : Int)
    (hfound : db.users.find? (fun u => u.token == tok) = some row)
    (hts : row.last_message_creation_timestamp = some ts) :
    get_user_limits (set_user_limits db tok r m c) tok = some (r, m, c) ∧
    get_user_last_message_creation_time (set_user_limits db tok r m c) tok = ts ∧
    get_user_last_message_creation_time db tok = ts := by
  have hprow := List.find?_some hfound
  have hany : db.users.any (fun u => u.token == tok) = true :=
    List.any_eq_true.mpr ⟨row, List.mem_of_find?_eq_some hfound, hprow⟩
  have hg : ∀ u : UserRow,
      ((fun u : UserRow => if u.token == tok then
        { u with retention_limit_minutes := r, max_size_bytes := m,
                 message_creation_limit_minutes := c } else u) u).token = u.token := by
    intro u
    by_cases h : u.token == tok <;> simp [h]
  have heq : row.token = tok := by simpa using hprow
  refine ⟨?_, ?_, ?_⟩
  · simp only [get_user_limits, set_user_limits, hany, if_true,
      find?_token_map hg tok, hfound]
    simp [heq]
  · simp only [get_user_last_message_creation_time, set_user_limits, hany, if_true,
      find?_token_map hg tok, hfound]
    simp [heq, hts]
  · simp only [get_user_last_message_creation_time, hfound, hts, Option.getD_some]

/-- Witness for C4: re-provisioning limits (4, 5, 6) for "userA" whose row
holds limits (1, 2, 3) and timestamp 100 keeps the timestamp at 100. -/
theorem claim_C4_upsert_preserves_timestamp_witness :
    get_user_limits
        (set_user_limits ⟨none, [⟨"userA", 1, 2, 3, some 100⟩], []⟩ "userA" 4 5 6) "userA" =
      some (4, 5, 6) ∧
    get_user_last_message_creation_time
        (set_user_limits ⟨none, [⟨"userA", 1, 2, 3, some 100⟩], []⟩ "userA" 4 5 6) "userA" = 100 ∧
    get_user_last_message_creation_time ⟨none, [⟨"userA", 1, 2, 3, some 100⟩], []⟩ "userA" = 100 :=
  claim_C4_upsert_preserves_timestamp ⟨none, [⟨"userA", 1, 2, 3, some 100⟩], []⟩ "userA"
    4 5 6 ⟨"userA", 1, 2, 3, some 100⟩ 100 (by decide) rfl

/-- On a nonnegative elapsed time below the limit window, the wrapping
u32 computation of `minutes_left_calc` is exactly
limit − floor(elapsed / 60). -/
theorem minutes_left_calc_eq (limit : Nat) (e : Int) (he : 0 ≤ e)
    (hlt : e < (limit : Int) * 60) (hb : limit < 4294967296) :
    minutes_left_calc limit e = limit - e.toNat / 60 := by
  obtain ⟨a, rfl⟩ := Int.eq_ofNat_of_zero_le he
  have ha : a < limit * 60 := by exact_mod_cast hlt
  have h1 : (a : Int).tdiv 60 = ((a / 60 : Nat) : Int) := rfl
  unfold minutes_left_calc
  rw [h1]
  omega

/-- Claim C3: with a positive message_creation_limit_minutes and a stored
positive last-creation timestamp T, a request at a time now at or after T
and strictly inside the cooldown window of limit × 60 seconds is denied as
rate-limited with minutes_left = limit − floor((now − T)/60); once the
window has fully elapsed, or when the stored timestamp reads back as 0
(covering both a missing row, a NULL column and a stored zero), the
rate-limit check passes. -/
theorem claim_C3_rate_limit_cooldown (db : Db) (tok : String)
    (uret maxsz climit : Nat) (T : Int) (req size : Nat) (now : Int)
    (hfound : get_user_limits db tok = some (uret, maxsz, climit))
    (hclimit : 0 < climit) (hbound : climit < 4294967296)
    (hlast : get_user_last_message_creation_time db tok = T) :
    ((0 < T ∧ 0 ≤ now - T ∧ now - T < (climit : Int) * 60) →
      create_new_message_decision db tok req size now =
        .rateLimited (climit - (now - T).toNat / 60)) ∧
    ((0 < T ∧ (climit : Int) * 60 ≤ now - T) →
      ∀ ml, create_new_message_decision db tok req size now ≠ .rateLimited ml) ∧
    (T = 0 →
      ∀ ml, create_new_message_decision db tok req size now ≠ .rateLimited ml) := by
  refine ⟨?_, ?_, ?_⟩
  · rintro ⟨hT, hge, hlt⟩
    simp only [create_new_message_decision, hfound, hlast]
    rw [if_pos ⟨hclimit, hT, hlt⟩,
      minutes_left_calc_eq climit (now - T) hge hlt hbound]
  · rintro ⟨hT, hge⟩ ml
    simp only [create_new_message_decision, hfound, hlast]
    rw [if_neg (by rintro ⟨-, -, hc⟩; exact absurd hc (not_lt.mpr hge))]
    split
    · simp
    · split <;> simp
  · intro hT ml
    simp only [create_new_message_decision, hfound, hlast]
    rw [if_neg (by rintro ⟨-, hc, -⟩; rw [hT] at hc; exact lt_irrefl 0 hc)]
    split
    · simp
    · split <;> simp

/-- Witness for C3: limit 5 minutes, last creation at 100, request at 160
(60 s elapsed, inside the 300 s window): denied with 4 minutes left. -/
theorem claim_C3_rate_limit_cooldown_witness :
    create_new_message_decision ⟨none, [⟨"userA", 10, 0, 5, some 100⟩], []⟩ "userA" 0 0 160 =
      .rateLimited 4 := by
  have h := (claim_C3_rate_limit_cooldown ⟨none, [⟨"userA", 10, 0, 5, some 100⟩], []⟩
    "userA" 10 0 5 100 0 0 160 rfl (by decide) (by decide) rfl).1
    ⟨by decide, by decide, by decide⟩
  simpa using h

/-- Claim C7: assuming the rate-limit check does not fire, with a positive
max_size_bytes a decoded payload strictly larger than the limit is denied as
too large, a payload of exactly the limit passes the size check, and with
max_size_bytes = 0 the size check always passes. -/
theorem claim_C7_size_limit (db : Db) (tok : String)
    (uret maxsz climit : Nat) (req size : Nat) (now : Int)
    (hfound : get_user_limits db tok = some (uret, maxsz, climit))
    (hnorate : ¬(0 < climit ∧ 0 < get_user_last_message_creation_time db tok ∧
      now - get_user_last_message_creation_time db tok < (climit : Int) * 60)) :
    (0 < maxsz → maxsz < size →
      create_new_message_decision db tok req size now = .tooLarge) ∧
    (0 < maxsz → size = maxsz →
      create_new_message_decision db tok req size now ≠ .tooLarge) ∧
    (maxsz = 0 → create_new_message_decision db tok req size now ≠ .tooLarge) := by
  refine ⟨?_, ?_, ?_⟩
  · intro hpos hlt
    simp only [create_new_message_decision, hfound]
    rw [if_neg hnorate, if_pos ⟨hpos, hlt⟩]
  · intro hpos hsz
    simp only [create_new_message_decision, hfound]
    rw [if_neg hnorate, if_neg (by rintro ⟨-, hc⟩; exact absurd hc (by simp [hsz]))]
    split <;> simp
  · intro hz
    simp only [create_new_message_decision, hfound]
    rw [if_neg hnorate, if_neg (by rintro ⟨hc, -⟩; exact absurd hc (by simp [hz]))]
    split <;> simp

/-- Witness for C7: max_size_bytes = 1024 denies a 1025-byte payload. -/
theorem claim_C7_size_limit_witness :
    create_new_message_decision ⟨none, [⟨"userA", 0, 1024, 0, none⟩], []⟩ "userA" 0 1025 50 =
      .tooLarge :=
  (claim_C7_size_limit ⟨none, [⟨"userA", 0, 1024, 0, none⟩], []⟩ "userA"
    0 1024 0 0 1025 50 rfl (by rintro ⟨hc, -⟩; exact absurd hc (by decide))).1
    (by decide) (by decide)

/-- Claim C8: assuming the rate-limit and size checks do not fire, the
decision is RetentionTooLong exactly when the requested retention is
positive, the quota's retention limit is positive, and the request strictly
exceeds the limit; in particular a requested retention of 0 or a retention
limit of 0 always passes the check. -/
theorem claim_C8_retention_limit (db : Db) (tok : String)
    (uret maxsz climit : Nat) (req size : Nat) (now : Int)
    (hfound : get_user_limits db tok = some (uret, maxsz, climit))
    (hnorate : ¬(0 < climit ∧ 0 < get_user_last_message_creation_time db tok ∧
      now - get_user_last_message_creation_time db tok < (climit : Int) * 60))
    (hnosize : ¬(0 < maxsz ∧ maxsz < size)) :
    create_new_message_decision db tok req size now = .retentionTooLong ↔
      0 < req ∧ 0 < uret ∧ uret < req := by
  simp only [create_new_message_decision, hfound]
  rw [if_neg hnorate, if_neg hnosize]
  constructor
  · intro h
    by_contra hc
    rw [if_neg hc] at h
    exact absurd h (by simp)
  · intro h
    rw [if_pos h]

/-- Witness for C8: retention limit 60 denies a requested retention of 61
and allows a requested retention of 0. -/
theorem claim_C8_retention_limit_witness :
    (create_new_message_decision ⟨none, [⟨"userA", 60, 0, 0, none⟩], []⟩ "userA" 61 0 50 =
      .retentionTooLong ↔ 0 < 61 ∧ 0 < 60 ∧ 60 < 61) :=
  claim_C8_retention_limit ⟨none, [⟨"userA", 60, 0, 0, none⟩], []⟩ "userA"
    60 0 0 61 0 50 rfl (by rintro ⟨hc, -⟩; exact absurd hc (by decide))
    (by rintro ⟨hc, -⟩; exact absurd hc (by decide))

/-- A single migration step used to instantiate the migrator theorems on
concrete chains; its transform is the identity on the store. -/
def updater_step (v : String) : DbUpdater :=
  ⟨v, fun db => .ok db⟩

/-- Claim C5: whatever chain is registered, an update of a store whose
version record is absent or already reads LATEST_VERSION applies no
migration step and only writes LATEST_VERSION back; and after any
successful update the version record equals LATEST_VERSION and a second
update returns the store unchanged. -/
theorem claim_C5_update_version_idempotent (all : List DbUpdater) (db : Db) :
    ((db.version = none ∨ get_database_version db = LATEST_VERSION) →
      update_version_from all db = .ok (set_database_version db LATEST_VERSION)) ∧
    (∀ db2, update_version_from all db = .ok db2 →
      get_database_version db2 = LATEST_VERSION ∧
      update_version_from all db2 = .ok db2) := by
  constructor
  · intro h
    have hv : get_database_version db = LATEST_VERSION := by
      rcases h with h | h
      · simp [get_database_version, h]
      · exact h
    simp [update_version_from, hv]
  · intro db2 h
    simp only [update_version_from] at h
    split at h
    · injection h with h2
      subst h2
      refine ⟨rfl, ?_⟩
      simp [update_version_from, get_database_version, set_database_version]
    · split at h
      · exact absurd h (by simp)
      · split at h
        · exact absurd h (by simp)
        · injection h with h2
          subst h2
          refine ⟨rfl, ?_⟩
          simp [update_version_from, get_database_version, set_database_version]

/-- Witness for C5: a store already at version "0.1" with a one-step chain
registered is updated by only rewriting the version record. -/
theorem claim_C5_update_version_idempotent_witness :
    update_version_from [updater_step "0.2"] ⟨some "0.1", [], []⟩ =
      .ok (set_database_version ⟨some "0.1", [], []⟩ LATEST_VERSION) :=
  (claim_C5_update_version_idempotent [updater_step "0.2"] ⟨some "0.1", [], []⟩).1
    (Or.inr rfl)

/-- Claim C6: when the store's version differs from LATEST_VERSION and the
collected contiguous updater subsequence is non-empty but its last step's
produced version is not LATEST_VERSION, `update_version` aborts with the
chain-broken panic: no resulting store is produced, so no step is applied
and no version is written. -/
theorem claim_C6_broken_chain_aborts (all : List DbUpdater) (db : Db)
    (lastU : DbUpdater)
    (hne : get_database_version db ≠ LATEST_VERSION)
    (hlast : (collect_updaters (get_database_version db) LATEST_VERSION all
        (get_database_version db == MINIMAL_VERSION)).getLast? = some lastU)
    (hver : lastU.version ≠ LATEST_VERSION) :
    update_version_from all db = .error (.chainBroken LATEST_VERSION lastU.version) := by
  simp only [update_version_from]
  rw [if_neg hne]
  simp only [make_updaters_from]
  rw [hlast]
  simp [hver]

/-- Witness for C6: from version "0.0" with registered steps producing
"0.0" then "0.05", the collected chain is the single step "0.05", which
does not reach "0.1", so the update aborts with the chain-broken panic. -/
theorem claim_C6_broken_chain_aborts_witness :
    update_version_from [updater_step "0.0", updater_step "0.05"] ⟨some "0.0", [], []⟩ =
      .error (.chainBroken LATEST_VERSION (updater_step "0.05").version) :=
  claim_C6_broken_chain_aborts [updater_step "0.0", updater_step "0.05"]
    ⟨some "0.0", [], []⟩ (updater_step "0.05") (by decide) rfl (by decide)

end OneTimeShare
